import Mathlib

/-!
Verification development for the oscClapHost repository (an OSC-driven CLAP
plugin host written in Rust).  The definitions below are a shallow embedding
of the code in `src/osc.rs` and `src/engine.rs`:

* Rust `i32` / `i64` / `u32` / `u16` values are modelled as `Int` / `Nat`
  with the wrapping and saturating cast semantics of the Rust `as` operator
  made explicit (`Int.bmod` for two`s-complement wrapping, explicit clamping
  for float-to-integer casts).
* OSC wire floats (`f32` / `f64` payloads) are modelled as exact rationals
  `ℚ`; arms of the coercion functions that are exact on the represented
  values (identity, widening, truncation toward zero with saturation) are
  modelled exactly, and no claim below depends on a rounding step.
* The fallible Rust functions returning `Option` are modelled as `Option`.
-/

namespace OscClap

/-- Wire argument type, embedding `rosc::OscType` restricted to the variants
`src/osc.rs` distinguishes: `Int(i32)`, `Long(i64)`, `Float(f32)`,
`Double(f64)`; every other wire variant (string, blob, ...) is collapsed
into `other`, matching the `_ => None` arms of the coercion functions. -/
inductive OscType where
  | int (v : Int)
  | long (v : Int)
  | float (v : ℚ)
  | double (v : ℚ)
  | other
deriving DecidableEq, Repr

/-- An OSC message: address pattern and argument list, as in `rosc::OscMessage`. -/
structure OscMessage where
  addr : String
  args : List OscType
deriving DecidableEq, Repr

/-- An OSC packet: a single message or a bundle of nested packets, as in
`rosc::OscPacket` (bundle time tags are ignored by the code). -/
inductive OscPacket where
  | message (msg : OscMessage)
  | bundle (content : List OscPacket)
deriving Repr

/-- Truncation of a rational toward zero, the rounding used by a Rust
float-to-integer `as` cast on in-range values: `Int.tdiv` is T-division
(rounding toward zero), so `num.tdiv den` is exactly trunc. -/
def ratTrunc (q : ℚ) : Int := q.num.tdiv (q.den : Int)

/-- Rust `f32/f64 as i32`: truncate toward zero, saturating at the `i32`
bounds (Rust float-to-int casts saturate). `NaN` (which maps to 0 in Rust)
has no counterpart in the rational model. -/
def f_as_i32 (q : ℚ) : Int :=
  if ratTrunc q < -(2 ^ 31) then -(2 ^ 31)
  else if 2 ^ 31 - 1 < ratTrunc q then 2 ^ 31 - 1
  else ratTrunc q

/-- Rust `f32/f64 as u32`: truncate toward zero, saturating at the `u32`
bounds. -/
def f_as_u32 (q : ℚ) : Nat :=
  if ratTrunc q < 0 then 0
  else if 2 ^ 32 - 1 < ratTrunc q then 2 ^ 32 - 1
  else (ratTrunc q).toNat

/-- Rust `i64 as i32` (also `i32 as i32`): keep the low 32 bits,
two`s-complement; `Int.bmod v (2^32)` lands in `[-2^31, 2^31)`. -/
def as_i32 (v : Int) : Int := Int.bmod v (2 ^ 32)

/-- Rust `i32/i64 as u32`: value modulo `2^32`, as a natural number. -/
def as_u32 (v : Int) : Nat := (v % (2 ^ 32)).toNat

/-- Rust `i32 as u16` followed by reinterpreting the raw `u16` as the CLAP
event struct`s `int16_t` field: keep the low 16 bits, two`s-complement. -/
def as_u16_i16 (v : Int) : Int := Int.bmod v (2 ^ 16)

/-- Embedding of `get_i32` (src/osc.rs): coerce a wire argument into an
`i32` slot.  `Int` is identity, `Long` wraps to 32 bits, floats truncate
toward zero with saturation, anything else is unresolvable. -/
def get_i32 : OscType → Option Int
  | .int v => some v
  | .long v => some (as_i32 v)
  | .float v => some (f_as_i32 v)
  | .double v => some (f_as_i32 v)
  | _ => none

/-- Embedding of `get_u32` (src/osc.rs): coerce a wire argument into a
`u32` slot.  Integer values are reinterpreted modulo `2^32`, floats
truncate toward zero with saturation. -/
def get_u32 : OscType → Option Nat
  | .int v => some (as_u32 v)
  | .long v => some (as_u32 v)
  | .float v => some (f_as_u32 v)
  | .double v => some (f_as_u32 v)
  | _ => none

/-- Embedding of `get_f32` (src/osc.rs): coerce a wire argument into an
`f32` slot.  In the rational model the float and integer injections are
exact; the `f64`-to-`f32` narrowing (which may round on reals) is modelled
as exact, and no claim depends on that arm`s rounding. -/
def get_f32 : OscType → Option ℚ
  | .float v => some v
  | .double v => some v
  | .int v => some (v : ℚ)
  | .long v => some (v : ℚ)
  | _ => none

/-- Embedding of `get_f64` (src/osc.rs): coerce a wire argument into an
`f64` slot; widening from `f32` is exact, integer injections are modelled
as exact. -/
def get_f64 : OscType → Option ℚ
  | .double v => some v
  | .float v => some v
  | .int v => some (v : ℚ)
  | .long v => some (v : ℚ)
  | _ => none

/-- The parsed control command, embedding `enum Command` (src/osc.rs). -/
inductive Command where
  | noteOn (note_id : Int) (key : Int) (velocity : ℚ) (channel : Int) (port : Int)
  | noteOff (note_id : Int) (key : Int) (velocity : ℚ) (channel : Int) (port : Int)
  | noteChoke (note_id : Int) (key : Int) (channel : Int) (port : Int)
  | paramSet (param_id : Nat) (value : ℚ)
  | paramMod (note_id : Int) (param_id : Nat) (amount : ℚ) (key : Int) (channel : Int) (port : Int)
  | dumpPatchState
deriving DecidableEq, Repr

/-- Embedding of `parse_note_on` (src/osc.rs): requires at least three
arguments (note_id, key, velocity); `args.get(3)` / `args.get(4)` resolve
the optional channel / port, defaulting to 0. -/
def parse_note_on : List OscType → Option Command
  | a0 :: a1 :: a2 :: rest => do
      let note_id ← get_i32 a0
      let key ← get_i32 a1
      let velocity ← get_f32 a2
      let channel := (rest[0]?.bind get_i32).getD 0
      let port := (rest[1]?.bind get_i32).getD 0
      some (.noteOn note_id key velocity channel port)
  | _ => none

/-- Embedding of `parse_note_off` (src/osc.rs); same shape as note-on. -/
def parse_note_off : List OscType → Option Command
  | a0 :: a1 :: a2 :: rest => do
      let note_id ← get_i32 a0
      let key ← get_i32 a1
      let velocity ← get_f32 a2
      let channel := (rest[0]?.bind get_i32).getD 0
      let port := (rest[1]?.bind get_i32).getD 0
      some (.noteOff note_id key velocity channel port)
  | _ => none

/-- Embedding of `parse_note_choke` (src/osc.rs): requires at least one
argument (note_id); key / channel / port default to the wildcard
sentinel -1 when omitted or unresolvable. -/
def parse_note_choke : List OscType → Option Command
  | a0 :: rest => do
      let note_id ← get_i32 a0
      let key := (rest[0]?.bind get_i32).getD (-1)
      let channel := (rest[1]?.bind get_i32).getD (-1)
      let port := (rest[2]?.bind get_i32).getD (-1)
      some (.noteChoke note_id key channel port)
  | _ => none

/-- Embedding of `parse_param_set` (src/osc.rs): requires param_id and
value. -/
def parse_param_set : List OscType → Option Command
  | a0 :: a1 :: _ => do
      let param_id ← get_u32 a0
      let value ← get_f64 a1
      some (.paramSet param_id value)
  | _ => none

/-- Embedding of `parse_param_mod` (src/osc.rs): requires note_id,
param_id, amount; after resolving those three, the param_id is checked
against the per-note eligibility set (the `HashSet<u32>` is modelled as a
`List Nat` with membership via `contains`); on failure of that check the
message yields no command.  Optional key / channel / port default to -1. -/
def parse_param_mod (args : List OscType) (per_note_mod_params : List Nat) : Option Command :=
  match args with
  | a0 :: a1 :: a2 :: rest => do
      let note_id ← get_i32 a0
      let param_id ← get_u32 a1
      let amount ← get_f64 a2
      if !(per_note_mod_params.contains param_id) then
        none
      else
        let key := (rest[0]?.bind get_i32).getD (-1)
        let channel := (rest[1]?.bind get_i32).getD (-1)
        let port := (rest[2]?.bind get_i32).getD (-1)
        some (.paramMod note_id param_id amount key channel port)
  | _ => none

/-- Embedding of `parse_message` (src/osc.rs): dispatch on the address
pattern; unknown addresses yield no command. -/
def parse_message (msg : OscMessage) (per_note_mod_params : List Nat) : Option Command :=
  match msg.addr with
  | "/note/on" => parse_note_on msg.args
  | "/note/off" => parse_note_off msg.args
  | "/note/choke" => parse_note_choke msg.args
  | "/param/set" => parse_param_set msg.args
  | "/param/mod" => parse_param_mod msg.args per_note_mod_params
  | "/patchState" => some .dumpPatchState
  | _ => none

/-- Modelled from the spec: the command queue is `rtrb::RingBuffer`, an
external crate whose source is not part of this repository; only its
constructor call (`create_command_queue`, src/osc.rs) and its `push` /
`pop` call sites are.  Following section 4.1 of the spec, the queue is a
fixed-capacity FIFO; the producer and consumer ends are modelled as one
state value. -/
structure Queue where
  capacity : Nat
  items : List Command
deriving DecidableEq, Repr

/-- The queue produced by `create_command_queue` (src/osc.rs): empty, with
the capacity fixed at construction. -/
def Queue.empty (capacity : Nat) : Queue := ⟨capacity, []⟩

/-- Modelled from the spec: `push(command) -> bool`, non-blocking; `false`
if full, and a failed push leaves the contents unchanged (spec 4.1). -/
def Queue.push (q : Queue) (c : Command) : Queue × Bool :=
  if q.items.length < q.capacity then ({ q with items := q.items ++ [c] }, true)
  else (q, false)

/-- Modelled from the spec: `pop() -> optional command`, non-blocking;
`none` when empty (spec 4.1). -/
def Queue.pop (q : Queue) : Queue × Option Command :=
  match q.items with
  | [] => (q, none)
  | c :: cs => ({ q with items := cs }, some c)

/-- Push a whole list of commands in order; the boolean records whether
every push succeeded. -/
def Queue.pushAll (q : Queue) (cs : List Command) : Queue × Bool :=
  cs.foldl (fun s c => let r := s.1.push c; (r.1, s.2 && r.2)) (q, true)

/-- Repeated `pop` until the queue reports empty, collecting the returned
commands in order — the draining loop of the render callback
(src/engine.rs, `while let Ok(cmd) = self.command_consumer.pop()`). -/
def Queue.drain (q : Queue) : List Command :=
  match h : q.pop with
  | (_, none) => []
  | (q', some c) => c :: q'.drain
termination_by q.items.length
decreasing_by
  simp only [Queue.pop] at h
  cases hi : q.items with
  | nil => rw [hi] at h; simp at h
  | cons x xs =>
      rw [hi] at h
      simp only [Prod.mk.injEq] at h
      obtain ⟨h1, h2⟩ := h
      subst h1
      simp [hi]

/-- One leaf message of `process_packet` (src/osc.rs): parse it and, on
success, push the command, dropping it if the queue is full. -/
def process_message (per_note_mod_params : List Nat) (q : Queue) (msg : OscMessage) : Queue :=
  match parse_message msg per_note_mod_params with
  | some cmd => (q.push cmd).1
  | none => q

/-- Embedding of `process_packet` (src/osc.rs): a message is parsed and
pushed; a bundle is walked left to right, recursing into each element
(depth-first flattening). -/
def process_packet (per_note_mod_params : List Nat) : OscPacket → Queue → Queue
  | .message msg, q => process_message per_note_mod_params q msg
  | .bundle [], q => q
  | .bundle (p :: ps), q =>
      process_packet per_note_mod_params (.bundle ps)
        (process_packet per_note_mod_params p q)
termination_by p => sizeOf p
decreasing_by
  all_goals simp
  all_goals omega

/-- The depth-first, left-to-right sequence of leaf messages of a packet
tree (the flattening order of `process_packet`). -/
def flatten_packet : OscPacket → List OscMessage
  | .message m => [m]
  | .bundle [] => []
  | .bundle (p :: ps) => flatten_packet p ++ flatten_packet (.bundle ps)
termination_by p => sizeOf p
decreasing_by
  all_goals simp
  all_goals omega

/-- The PCKN addressing tuple of a CLAP event, at the raw wire (ABI) level:
`port` / `channel` / `key` are the `int16_t` fields and `note_id` the
`int32_t` field of the CLAP note / parameter event structs, where the raw
value -1 means wildcard (match any) and a non-negative value a concrete
index.  The `clack` wrappers (`Pckn::new`, `Match::All`,
`Match::Specific`) are an external crate; they are modelled by the raw
values they store, which the CLAP ABI fixes: `Match::All` stores -1 and
`Match::Specific(v)` stores `v` reinterpreted in the signed field. -/
structure PcknRaw where
  port : Int
  channel : Int
  key : Int
  note_id : Int
deriving DecidableEq, Repr

/-- The raw PCKN value -1: the CLAP wildcard (match any). -/
def pcknWildcard : Int := -1

/-- The fully wildcarded tuple, `Pckn::new(Match::All, Match::All,
Match::All, Match::All)`. -/
def PcknRaw.allWildcard : PcknRaw := ⟨-1, -1, -1, -1⟩

/-- The events the host sends to the plugin, embedding `enum EventUnion`
(src/engine.rs); each carries the timestamp (always 0 here) and its
payload at the raw CLAP level. -/
inductive EventUnion where
  | noteOn (time : Nat) (pckn : PcknRaw) (velocity : ℚ)
  | noteOff (time : Nat) (pckn : PcknRaw) (velocity : ℚ)
  | noteChoke (time : Nat) (pckn : PcknRaw)
  | paramValue (time : Nat) (param_id : Nat) (pckn : PcknRaw) (value : ℚ)
  | paramMod (time : Nat) (param_id : Nat) (pckn : PcknRaw) (amount : ℚ)
deriving DecidableEq, Repr

/-- `ClapId::from_raw` of the external `clack` crate, fixed by the CLAP
ABI: every `u32` is a valid id except `CLAP_INVALID_ID = u32::MAX`. -/
def clapIdFromRaw (n : Nat) : Option Nat :=
  if n = 2 ^ 32 - 1 then none else some n

/-- Embedding of `command_to_event` (src/engine.rs).  Note events store
`field as u16` reinterpreted as the i16 ABI field (`as_u16_i16`) and
`note_id as u32` reinterpreted as the i32 ABI field (`as_i32`).  ParamSet
is fully wildcarded; ParamMod is fully wildcarded when `note_id < 0` and
otherwise resolves each of port / channel / key to wildcard exactly when
negative.  Modelled from the spec: the `Command::DumpPatchState` match arm
is absent from src/engine.rs (the `match` there is non-exhaustive as
written); per the spec (section 4.3, "Dump Patch State produces no event;
translation yields nothing") that arm yields `none`. -/
def command_to_event : Command → Option EventUnion
  | .noteOn note_id key velocity channel port =>
      some (.noteOn 0 ⟨as_u16_i16 port, as_u16_i16 channel, as_u16_i16 key, as_i32 note_id⟩ velocity)
  | .noteOff note_id key velocity channel port =>
      some (.noteOff 0 ⟨as_u16_i16 port, as_u16_i16 channel, as_u16_i16 key, as_i32 note_id⟩ velocity)
  | .noteChoke note_id key channel port =>
      some (.noteChoke 0 ⟨as_u16_i16 port, as_u16_i16 channel, as_u16_i16 key, as_i32 note_id⟩)
  | .paramSet param_id value => do
      let pid ← clapIdFromRaw param_id
      some (.paramValue 0 pid PcknRaw.allWildcard value)
  | .paramMod note_id param_id amount key channel port => do
      let pid ← clapIdFromRaw param_id
      let pckn :=
        if note_id < 0 then PcknRaw.allWildcard
        else
          { port := if port < 0 then -1 else as_u16_i16 port
            channel := if channel < 0 then -1 else as_u16_i16 channel
            key := if key < 0 then -1 else as_u16_i16 key
            note_id := as_i32 note_id }
      some (.paramMod 0 pid pckn amount)
  | .dumpPatchState => none

/-- A destination sample encoding of the output stream, abstracting the
`cpal` sample traits used by the render path (spec section 4.4 and design
note in section 9): a digital-silence (equilibrium) value
(`Sample::EQUILIBRIUM`) and a conversion from the unit-range float
(`Sample::from_sample`). -/
structure SampleEncoding (S : Type) where
  equilibrium : S
  from_sample : ℚ → S

/-- An unsigned 8-bit PCM destination encoding: its digital silence is
128, not the zero bit pattern; conversion linearly rescales the unit range
and clamps, as standard PCM conversion does. -/
def u8Encoding : SampleEncoding Int where
  equilibrium := 128
  from_sample := fun q => max 0 (min 255 (128 + ratTrunc (q * 128)))

/-- A floating destination encoding: silence is 0.0 and conversion is the
identity. -/
def f32Encoding : SampleEncoding ℚ where
  equilibrium := 0
  from_sample := fun q => q

/-- The audio-processing unit inside one render call, abstracting
`StartedPluginAudioProcessor::process` of the external `clack` crate: from
the input event batch and the steady sample counter it either fails
(`none`) or succeeds and writes the planar output region (`some` of the
values it leaves there).  The planar inputs are not an argument because
the engine always passes freshly zero-filled input channels. -/
def PluginModel : Type := List EventUnion → Nat → Option (List ℚ)

/-- Embedding of `struct StreamAudioProcessor` (src/engine.rs): the
consumer end of the command queue, the planar scratch buffers, the channel
count and the steady sample counter. -/
structure StreamAudioProcessor where
  command_consumer : Queue
  input_buffers : List ℚ
  output_buffers : List ℚ
  channel_count : Nat
  steady_counter : Nat
deriving DecidableEq, Repr

/-- Embedding of `StreamAudioProcessor::new` (src/engine.rs): scratch
buffers of `channel_count * max_buffer_size` zeros, counter starting at 0. -/
def StreamAudioProcessor.new (command_consumer : Queue) (channel_count max_buffer_size : Nat) :
    StreamAudioProcessor :=
  { command_consumer := command_consumer
    input_buffers := List.replicate (channel_count * max_buffer_size) 0
    output_buffers := List.replicate (channel_count * max_buffer_size) 0
    channel_count := channel_count
    steady_counter := 0 }

/-- `Vec::resize(n, 0.0)`: truncate to `n` or grow with zeros. -/
def resizeTo (l : List ℚ) (n : Nat) : List ℚ :=
  l.take n ++ List.replicate (n - l.length) 0

/-- `buf[..n].fill(0.0)`: zero the first `n` entries, keep the tail. -/
def fillZero (l : List ℚ) (n : Nat) : List ℚ :=
  List.replicate (min n l.length) 0 ++ l.drop n

/-- The first `needed` planar output samples as left by a successful
plugin call, clipped and zero-padded to the region (the plugin writes only
into the `needed`-sized region handed to it). -/
def pluginRegion (needed : Nat) (out : List ℚ) : List ℚ :=
  out.take needed ++ List.replicate (needed - out.length) 0

/-- Embedding of `interleave_to_output` (src/engine.rs): for each frame
and channel, copy planar sample `ch * frame_count + frame` to interleaved
slot `frame * channel_count + ch`, converting via the destination
encoding; both indices are bounds-checked (`List.set` is a no-op out of
range, matching the `dst_idx` guard). -/
def interleave_to_output {S : Type} (enc : SampleEncoding S) (output : List S)
    (channel_buffers : List ℚ) (channel_count frame_count : Nat) : List S :=
  (List.range frame_count).foldl
    (fun out frame =>
      (List.range channel_count).foldl
        (fun out ch =>
          let src_idx := ch * frame_count + frame
          let dst_idx := frame * channel_count + ch
          if src_idx < channel_buffers.length then
            out.set dst_idx (enc.from_sample (channel_buffers.getD src_idx 0))
          else out)
        out)
    output

/-- Embedding of `StreamAudioProcessor::process` (src/engine.rs), one
render callback: compute the frame count, resize the scratch buffers if
too small, zero-fill the active regions, drain the command queue
completely, translate the drained commands to the input event batch,
invoke the plugin; on success interleave the planar output into the
destination buffer, on failure overwrite every destination sample with the
encoding`s equilibrium value; finally advance the steady counter by the
frame count, unconditionally.  Returns the new engine state and the
destination buffer contents. -/
def processStep {S : Type} (enc : SampleEncoding S) (plugin : PluginModel)
    (sp : StreamAudioProcessor) (data : List S) : StreamAudioProcessor × List S :=
  let frame_count := data.length / sp.channel_count
  let needed_size := sp.channel_count * frame_count
  let input_buffers :=
    if sp.output_buffers.length < needed_size then resizeTo sp.input_buffers needed_size
    else sp.input_buffers
  let output_buffers :=
    if sp.output_buffers.length < needed_size then resizeTo sp.output_buffers needed_size
    else sp.output_buffers
  let input_buffers := fillZero input_buffers needed_size
  let output_buffers := fillZero output_buffers needed_size
  let cmds := sp.command_consumer.drain
  let queue_after : Queue := ⟨sp.command_consumer.capacity, []⟩
  let events := cmds.filterMap command_to_event
  match plugin events sp.steady_counter with
  | some plug_out =>
      let out_bufs := pluginRegion needed_size plug_out ++ output_buffers.drop needed_size
      ({ command_consumer := queue_after
         input_buffers := input_buffers
         output_buffers := out_bufs
         channel_count := sp.channel_count
         steady_counter := sp.steady_counter + frame_count },
       interleave_to_output enc data out_bufs sp.channel_count frame_count)
  | none =>
      ({ command_consumer := queue_after
         input_buffers := input_buffers
         output_buffers := output_buffers
         channel_count := sp.channel_count
         steady_counter := sp.steady_counter + frame_count },
       List.replicate data.length enc.equilibrium)

/-- One step of a whole run of the engine: the ingestion side first pushes
some commands (dropping on overflow), then the hardware invokes one render
callback. -/
def runStep {S : Type} (enc : SampleEncoding S)
    (sp : StreamAudioProcessor) (call : PluginModel × List Command × List S) :
    StreamAudioProcessor :=
  let sp' := { sp with command_consumer := (sp.command_consumer.pushAll call.2.1).1 }
  (processStep enc call.1 sp' call.2.2).1

/-- A run of the engine over a list of callbacks. -/
def processRun {S : Type} (enc : SampleEncoding S) (sp : StreamAudioProcessor)
    (calls : List (PluginModel × List Command × List S)) : StreamAudioProcessor :=
  calls.foldl (runStep enc) sp

/-- The input event batch one render callback hands to the plugin: the
drained commands, translated and accumulated in arrival order. -/
def inputEventBatch (sp : StreamAudioProcessor) : List EventUnion :=
  sp.command_consumer.drain.filterMap command_to_event

/-- A plugin that reports failure on every render call. -/
def alwaysFailPlugin : PluginModel := fun _ _ => none

/-- A plugin that succeeds on every render call, leaving `out` in the
planar output region. -/
def constPlugin (out : List ℚ) : PluginModel := fun _ _ => some out

/-- Concrete fixture: a well-formed `/note/on` message. -/
def noteOnMsg (n : Int) : OscMessage := ⟨"/note/on", [.int n, .int 60, .float 1]⟩

/-- Concrete fixture: a bundle holding a nested two-message bundle
followed by one top-level message. -/
def nestedBundle : OscPacket :=
  .bundle [.bundle [.message (noteOnMsg 1), .message (noteOnMsg 2)], .message (noteOnMsg 3)]

/-- Concrete fixture: the logically equivalent fully flat bundle. -/
def flatBundle : OscPacket :=
  .bundle [.message (noteOnMsg 1), .message (noteOnMsg 2), .message (noteOnMsg 3)]

/-- Concrete fixture: a fresh engine state, 2 channels, scratch capacity
for 4 frames. -/
def sp0 : StreamAudioProcessor := StreamAudioProcessor.new (Queue.empty 4) 2 4

/-- Concrete fixture: a 4-sample interleaved destination buffer (2 frames
of 2 channels) for the u8 encoding. -/
def data0 : List Int := [0, 0, 0, 0]

/-- Concrete fixture: a planar output region a successful plugin call
leaves behind. -/
def out0 : List ℚ := [1, 0, 1, 0]

/-! ## Helper lemmas -/

theorem Queue.drain_eq_items (q : Queue) : q.drain = q.items := by
  induction q using Queue.drain.induct with
  | case1 q fst h =>
      rw [Queue.drain]
      split
      · obtain ⟨cap, items⟩ := q
        simp only [Queue.pop] at h
        cases items with
        | nil => rfl
        | cons c cs => simp at h
      · next q2 c heq =>
          rw [heq] at h
          simp at h
  | case2 q q' c h ih =>
      rw [Queue.drain]
      split
      · next heq => rw [heq] at h; simp at h
      · next q2 c2 heq =>
          rw [heq] at h
          simp only [Prod.mk.injEq, Option.some.injEq] at h
          obtain ⟨h1, h2⟩ := h
          subst h1 h2
          rw [ih]
          obtain ⟨cap, items⟩ := q
          simp only [Queue.pop] at heq
          cases items with
          | nil => simp at heq
          | cons x xs =>
              simp only [Prod.mk.injEq, Option.some.injEq] at heq
              obtain ⟨hq1, hq2⟩ := heq
              rw [← hq1, ← hq2]

theorem Queue.pushAll_succeeds (q : Queue) (cs : List Command)
    (h : q.items.length + cs.length ≤ q.capacity) :
    q.pushAll cs = (⟨q.capacity, q.items ++ cs⟩, true) := by
  induction cs generalizing q with
  | nil =>
      obtain ⟨cap, items⟩ := q
      simp [Queue.pushAll]
  | cons c cs ih =>
      have hlt : q.items.length < q.capacity := by
        simp only [List.length_cons] at h; omega
      have hstep : q.push c = ({ q with items := q.items ++ [c] }, true) := by
        simp [Queue.push, hlt]
      have htail := ih { q with items := q.items ++ [c] }
        (by simp only [List.length_append, List.length_cons, List.length_nil] at *; omega)
      simp only [Queue.pushAll, List.foldl_cons] at *
      rw [hstep] at *
      simpa [List.append_assoc] using htail

theorem process_packet_eq_foldl (set : List Nat) (p : OscPacket) (q : Queue) :
    process_packet set p q = (flatten_packet p).foldl (process_message set) q := by
  induction p, q using process_packet.induct set with
  | case1 msg q => rw [process_packet, flatten_packet]; rfl
  | case2 q => rw [process_packet, flatten_packet]; rfl
  | case3 p ps q ih1 ih2 =>
      rw [process_packet, flatten_packet, List.foldl_append, ← ih1, ← ih2]

@[simp] theorem resizeTo_length (l : List ℚ) (n : Nat) : (resizeTo l n).length = n := by
  simp [resizeTo]
  omega

@[simp] theorem fillZero_length (l : List ℚ) (n : Nat) : (fillZero l n).length = l.length := by
  simp [fillZero]
  omega

@[simp] theorem pluginRegion_length (n : Nat) (out : List ℚ) : (pluginRegion n out).length = n := by
  simp [pluginRegion]
  omega

theorem interleave_congr {S : Type} (enc : SampleEncoding S) (data : List S) (b1 b2 : List ℚ)
    (cc fc : Nat) (hlen : b1.length = b2.length)
    (hagree : ∀ i, i < cc * fc → b1.getD i 0 = b2.getD i 0) :
    interleave_to_output enc data b1 cc fc = interleave_to_output enc data b2 cc fc := by
  unfold interleave_to_output
  apply List.foldl_ext
  intro out frame hframe
  apply List.foldl_ext
  intro out2 ch hch
  have hf : frame < fc := List.mem_range.mp hframe
  have hc : ch < cc := List.mem_range.mp hch
  have hsrc : ch * fc + frame < cc * fc := by
    calc ch * fc + frame < ch * fc + fc := by omega
      _ = (ch + 1) * fc := by ring
      _ ≤ cc * fc := Nat.mul_le_mul_right fc hc
  simp only [hlen, hagree _ hsrc]

theorem processStep_out_independent {S : Type} (enc : SampleEncoding S) (plugin : PluginModel)
    (qc : Queue) (ib b1 b2 : List ℚ) (cc sc : Nat) (data : List S)
    (hlen : b1.length = b2.length) :
    (processStep enc plugin ⟨qc, ib, b1, cc, sc⟩ data).2
      = (processStep enc plugin ⟨qc, ib, b2, cc, sc⟩ data).2
    ∧ (processStep enc plugin ⟨qc, ib, b1, cc, sc⟩ data).1.steady_counter
      = (processStep enc plugin ⟨qc, ib, b2, cc, sc⟩ data).1.steady_counter := by
  simp only [processStep]
  rw [hlen]
  cases hpl : plugin (qc.drain.filterMap command_to_event) sc with
  | none => exact ⟨rfl, rfl⟩
  | some out =>
      simp only [hpl]
      constructor
      · apply interleave_congr
        · simp only [List.length_append, pluginRegion_length, List.length_drop, fillZero_length]
          split_ifs with hcond
          · simp only [resizeTo_length]
          · omega
        · intro i hi
          have hihead : i < (pluginRegion (cc * (data.length / cc)) out).length := by
            simpa using hi
          rw [List.getD_append _ _ _ _ hihead, List.getD_append _ _ _ _ hihead]
      · first
        | rfl
        | trivial

theorem processStep_steady_counter {S : Type} (enc : SampleEncoding S) (plugin : PluginModel)
    (sp : StreamAudioProcessor) (data : List S) :
    (processStep enc plugin sp data).1.steady_counter
      = sp.steady_counter + data.length / sp.channel_count := by
  simp only [processStep]
  cases hpl : plugin (sp.command_consumer.drain.filterMap command_to_event) sp.steady_counter with
  | none => rfl
  | some out => rfl

theorem steady_counter_le_processRun {S : Type} (enc : SampleEncoding S)
    (sp : StreamAudioProcessor) (calls : List (PluginModel × List Command × List S)) :
    sp.steady_counter ≤ (processRun enc sp calls).steady_counter := by
  induction calls generalizing sp with
  | nil => exact Nat.le_refl _
  | cons call calls ih =>
      simp only [processRun, List.foldl_cons]
      refine Nat.le_trans ?_ (ih (runStep enc sp call))
      unfold runStep
      rw [processStep_steady_counter]
      simp

theorem filterMap_dump (cs1 cs2 : List Command) :
    (cs1 ++ Command.dumpPatchState :: cs2).filterMap command_to_event
      = (cs1 ++ cs2).filterMap command_to_event := by
  rw [show Command.dumpPatchState :: cs2 = [Command.dumpPatchState] ++ cs2 from rfl]
  simp [List.filterMap_append, command_to_event]

/-! ## Claim theorems -/

/-- C1: the command queue is a fixed-capacity FIFO: every command of a
sequence fitting the spare capacity is pushed successfully and popping
returns the sequence in the exact push order; with capacity `N`, after `N`
successful pushes the next push (before any pop) fails and leaves the `N`
queued entries unchanged. -/
theorem c1_queue_fifo (N : Nat) (cs : List Command) (c : Command) (h : cs.length ≤ N) :
    ((Queue.empty N).pushAll cs).2 = true
    ∧ ((Queue.empty N).pushAll cs).1.drain = cs
    ∧ (cs.length = N →
        ((Queue.empty N).pushAll cs).1.push c = (((Queue.empty N).pushAll cs).1, false)) := by
  have hall := Queue.pushAll_succeeds (Queue.empty N) cs (by simpa [Queue.empty] using h)
  refine ⟨by rw [hall], by rw [hall]; simpa using Queue.drain_eq_items _, ?_⟩
  intro hN
  rw [hall]
  simp [Queue.push, Queue.empty, hN]

theorem c1_queue_fifo_witness :
    ([Command.paramSet 1 0, Command.dumpPatchState] : List Command).length ≤ 2
    ∧ (((Queue.empty 2).pushAll [Command.paramSet 1 0, Command.dumpPatchState]).2 = true
      ∧ ((Queue.empty 2).pushAll [Command.paramSet 1 0, Command.dumpPatchState]).1.drain
          = [Command.paramSet 1 0, Command.dumpPatchState]
      ∧ (([Command.paramSet 1 0, Command.dumpPatchState] : List Command).length = 2 →
          ((Queue.empty 2).pushAll [Command.paramSet 1 0, Command.dumpPatchState]).1.push
              Command.dumpPatchState
            = (((Queue.empty 2).pushAll [Command.paramSet 1 0, Command.dumpPatchState]).1, false))) :=
  ⟨by decide, c1_queue_fifo 2 [Command.paramSet 1 0, Command.dumpPatchState]
    Command.dumpPatchState (by decide)⟩

/-- C2: when the plugin reports failure for a render callback, every
sample of the destination buffer is overwritten with the destination
encoding`s digital-silence (equilibrium) value, and the engine continues:
the next callback, from the state the failing call left behind, produces
exactly the destination buffer and counter it would produce from the state
a successful call (any successful plugin result) would have left. -/
theorem c2_failure_silence {S : Type} (enc : SampleEncoding S) (plugin : PluginModel)
    (sp : StreamAudioProcessor) (data : List S)
    (hfail : plugin (inputEventBatch sp) sp.steady_counter = none) :
    (processStep enc plugin sp data).2 = List.replicate data.length enc.equilibrium
    ∧ ∀ (pluginS : PluginModel) (outS : List ℚ),
        pluginS (inputEventBatch sp) sp.steady_counter = some outS →
        ∀ (plugin2 : PluginModel) (data2 : List S),
          (processStep enc plugin2 (processStep enc plugin sp data).1 data2).2
            = (processStep enc plugin2 (processStep enc pluginS sp data).1 data2).2
          ∧ (processStep enc plugin2 (processStep enc plugin sp data).1 data2).1.steady_counter
            = (processStep enc plugin2 (processStep enc pluginS sp data).1 data2).1.steady_counter := by
  obtain ⟨⟨cap, items⟩, ib, ob, cc, sc⟩ := sp
  simp only [inputEventBatch] at hfail
  have h1 : processStep enc plugin ⟨⟨cap, items⟩, ib, ob, cc, sc⟩ data
      = (⟨⟨cap, []⟩,
          fillZero (if ob.length < cc * (data.length / cc)
            then resizeTo ib (cc * (data.length / cc)) else ib) (cc * (data.length / cc)),
          fillZero (if ob.length < cc * (data.length / cc)
            then resizeTo ob (cc * (data.length / cc)) else ob) (cc * (data.length / cc)),
          cc, sc + data.length / cc⟩,
        List.replicate data.length enc.equilibrium) := by
    simp only [processStep]
    rw [hfail]
  refine ⟨by rw [h1], ?_⟩
  intro pluginS outS hS plugin2 data2
  simp only [inputEventBatch] at hS
  have h2 : processStep enc pluginS ⟨⟨cap, items⟩, ib, ob, cc, sc⟩ data
      = (⟨⟨cap, []⟩,
          fillZero (if ob.length < cc * (data.length / cc)
            then resizeTo ib (cc * (data.length / cc)) else ib) (cc * (data.length / cc)),
          pluginRegion (cc * (data.length / cc)) outS
            ++ (fillZero (if ob.length < cc * (data.length / cc)
                then resizeTo ob (cc * (data.length / cc)) else ob)
                (cc * (data.length / cc))).drop (cc * (data.length / cc)),
          cc, sc + data.length / cc⟩,
        interleave_to_output enc data
          (pluginRegion (cc * (data.length / cc)) outS
            ++ (fillZero (if ob.length < cc * (data.length / cc)
                then resizeTo ob (cc * (data.length / cc)) else ob)
                (cc * (data.length / cc))).drop (cc * (data.length / cc)))
          cc (data.length / cc)) := by
    simp only [processStep]
    rw [hS]
  rw [h1, h2]
  apply processStep_out_independent
  simp only [fillZero_length, List.length_append, pluginRegion_length, List.length_drop]
  split_ifs with hcond
  · simp only [resizeTo_length]
    omega
  · omega

theorem c2_failure_silence_witness :
    alwaysFailPlugin (inputEventBatch sp0) sp0.steady_counter = none
    ∧ constPlugin out0 (inputEventBatch sp0) sp0.steady_counter = some out0
    ∧ (processStep u8Encoding alwaysFailPlugin sp0 data0).2
        = List.replicate data0.length u8Encoding.equilibrium
    ∧ (processStep u8Encoding alwaysFailPlugin
          (processStep u8Encoding alwaysFailPlugin sp0 data0).1 data0).2
        = (processStep u8Encoding alwaysFailPlugin
          (processStep u8Encoding (constPlugin out0) sp0 data0).1 data0).2
    ∧ (processStep u8Encoding alwaysFailPlugin
          (processStep u8Encoding alwaysFailPlugin sp0 data0).1 data0).1.steady_counter
        = (processStep u8Encoding alwaysFailPlugin
          (processStep u8Encoding (constPlugin out0) sp0 data0).1 data0).1.steady_counter := by
  have h := c2_failure_silence u8Encoding alwaysFailPlugin sp0 data0 rfl
  have h2 := h.2 (constPlugin out0) out0 rfl alwaysFailPlugin data0
  exact ⟨rfl, rfl, h.1, h2.1, h2.2⟩

/-- C3: the steady sample counter starts at 0, advances after every render
callback by exactly that callback`s frame count (destination length
divided by channel count) whatever the plugin result was, and is
monotonically non-decreasing along every run of the engine. -/
theorem c3_steady_counter :
    (∀ (q : Queue) (cc mbs : Nat), (StreamAudioProcessor.new q cc mbs).steady_counter = 0)
    ∧ (∀ (S : Type) (enc : SampleEncoding S) (plugin : PluginModel)
        (sp : StreamAudioProcessor) (data : List S), 0 < sp.channel_count →
        (processStep enc plugin sp data).1.steady_counter
          = sp.steady_counter + data.length / sp.channel_count)
    ∧ (∀ (S : Type) (enc : SampleEncoding S) (q : Queue) (cc mbs : Nat)
        (calls : List (PluginModel × List Command × List S)) (i j : Nat), i ≤ j →
        (processRun enc (StreamAudioProcessor.new q cc mbs) (calls.take i)).steady_counter
          ≤ (processRun enc (StreamAudioProcessor.new q cc mbs) (calls.take j)).steady_counter) := by
  refine ⟨fun q cc mbs => rfl,
    fun S enc plugin sp data _ => processStep_steady_counter enc plugin sp data, ?_⟩
  intro S enc q cc mbs calls i j hij
  have h1 : (calls.take j).take i = calls.take i := by
    rw [List.take_take, Nat.min_eq_left hij]
  have hsplit : processRun enc (StreamAudioProcessor.new q cc mbs) (calls.take j)
      = processRun enc (processRun enc (StreamAudioProcessor.new q cc mbs) (calls.take i))
          ((calls.take j).drop i) := by
    conv_lhs =>
      rw [show (calls.take j) = (calls.take i) ++ ((calls.take j).drop i) from by
        rw [← h1, List.take_append_drop]]
    simp [processRun, List.foldl_append]
  rw [hsplit]
  exact steady_counter_le_processRun enc _ _

theorem c3_steady_counter_witness :
    (0 < sp0.channel_count
      ∧ (processStep f32Encoding alwaysFailPlugin sp0 ([0, 0, 0, 0] : List ℚ)).1.steady_counter
          = sp0.steady_counter + ([0, 0, 0, 0] : List ℚ).length / sp0.channel_count)
    ∧ ((1 : Nat) ≤ 2
      ∧ (processRun f32Encoding (StreamAudioProcessor.new (Queue.empty 4) 2 4)
            (([] : List (PluginModel × List Command × List ℚ)).take 1)).steady_counter
        ≤ (processRun f32Encoding (StreamAudioProcessor.new (Queue.empty 4) 2 4)
            (([] : List (PluginModel × List Command × List ℚ)).take 2)).steady_counter) :=
  ⟨⟨by decide, c3_steady_counter.2.1 ℚ f32Encoding alwaysFailPlugin sp0 [0, 0, 0, 0] (by decide)⟩,
   ⟨by decide, c3_steady_counter.2.2 ℚ f32Encoding (Queue.empty 4) 2 4 [] 1 2 (by decide)⟩⟩

/-- C4: processing an OSC packet tree flattens bundles recursively,
depth-first and left to right: for every packet it acts like processing
the flattened leaf-message sequence in order; and the concrete nested
bundle (a two-message bundle followed by one message) pushes the same
3-command sequence, in the same order, as the fully flat bundle. -/
theorem c4_bundle_flatten :
    (∀ (set : List Nat) (p : OscPacket) (q : Queue),
        process_packet set p q = (flatten_packet p).foldl (process_message set) q)
    ∧ process_packet [] nestedBundle (Queue.empty 8)
        = process_packet [] flatBundle (Queue.empty 8)
    ∧ (process_packet [] nestedBundle (Queue.empty 8)).items
        = [Command.noteOn 1 60 1 0 0, Command.noteOn 2 60 1 0 0, Command.noteOn 3 60 1 0 0] := by
  have hflat : flatten_packet nestedBundle = flatten_packet flatBundle := by
    simp only [nestedBundle, flatBundle, flatten_packet]
    rfl
  refine ⟨process_packet_eq_foldl, ?_, ?_⟩
  · rw [process_packet_eq_foldl, process_packet_eq_foldl, hflat]
  · have hfb : flatten_packet flatBundle = [noteOnMsg 1, noteOnMsg 2, noteOnMsg 3] := by
      simp only [flatBundle, flatten_packet]
      rfl
    rw [process_packet_eq_foldl, hflat, hfb]
    rfl

/-- C5: a NoteChoke whose key, channel and port carry the wildcard
sentinel -1 (the parser defaults when those arguments are omitted, as the
single-argument parse shows) translates to a note-choke event whose raw
CLAP port / channel / key fields are the wildcard value -1, which is not
any concrete non-negative index. -/
theorem c5_choke_wildcard :
    (∀ note_id : Int, parse_note_choke [.int note_id]
        = some (.noteChoke note_id (-1) (-1) (-1)))
    ∧ (∀ note_id : Int, command_to_event (.noteChoke note_id (-1) (-1) (-1))
        = some (.noteChoke 0 ⟨pcknWildcard, pcknWildcard, pcknWildcard, as_i32 note_id⟩))
    ∧ pcknWildcard = -1
    ∧ (∀ k : Nat, pcknWildcard ≠ (k : Int)) := by
  refine ⟨fun note_id => rfl, fun note_id => ?_, rfl, fun k => ?_⟩
  · have hw : as_u16_i16 (-1) = -1 := by decide
    simp [command_to_event, hw, pcknWildcard]
  · have : (0 : Int) ≤ (k : Int) := Int.natCast_nonneg k
    simp only [pcknWildcard]
    omega

/-- C8: `/note/on` with fewer than 3 arguments produces no command (and an
unresolvable required slot also drops the message); with arguments
`[3, 60, 0.8]` it produces `NoteOn{note_id=3, key=60, velocity=0.8,
channel=0, port=0}`, channel and port defaulting to 0. -/
theorem c8_note_on (args : List OscType) (h : args.length < 3) :
    parse_note_on args = none
    ∧ parse_note_on [.other, .int 60, .float 1] = none
    ∧ parse_note_on [.int 3, .int 60, .float (4/5)]
        = some (.noteOn 3 60 (4/5) 0 0) := by
  refine ⟨?_, rfl, rfl⟩
  match args with
  | [] => rfl
  | [_] => rfl
  | [_, _] => rfl
  | _ :: _ :: _ :: _ => simp only [List.length_cons] at h; omega

theorem c8_note_on_witness :
    ([] : List OscType).length < 3
    ∧ (parse_note_on [] = none
      ∧ parse_note_on [.other, .int 60, .float 1] = none
      ∧ parse_note_on [.int 3, .int 60, .float (4/5)]
          = some (.noteOn 3 60 (4/5) 0 0)) :=
  ⟨by decide, c8_note_on [] (by decide)⟩

/-- C6: a `/param/mod` message with three resolvable leading arguments
whose param_id is not in the per-note eligibility set produces no command
and pushes nothing onto the queue; if the param_id is a member, it
produces a ParamMod with the parsed fields, the optional key / channel /
port defaulting to -1. -/
theorem c6_param_mod_gate (a0 a1 a2 : OscType) (rest : List OscType) (set : List Nat)
    (i : Int) (n : Nat) (v : ℚ) (qu : Queue)
    (h0 : get_i32 a0 = some i) (h1 : get_u32 a1 = some n) (h2 : get_f64 a2 = some v) :
    (set.contains n = false →
      parse_param_mod (a0 :: a1 :: a2 :: rest) set = none
      ∧ process_message set qu ⟨"/param/mod", a0 :: a1 :: a2 :: rest⟩ = qu)
    ∧ (set.contains n = true →
      parse_param_mod (a0 :: a1 :: a2 :: rest) set
        = some (.paramMod i n v ((rest[0]?.bind get_i32).getD (-1))
            ((rest[1]?.bind get_i32).getD (-1)) ((rest[2]?.bind get_i32).getD (-1)))) := by
  constructor
  · intro hno
    have hno' : n ∉ set := by simpa using hno
    have hp : parse_param_mod (a0 :: a1 :: a2 :: rest) set = none := by
      simp [parse_param_mod, h0, h1, h2, hno']
    refine ⟨hp, ?_⟩
    have hm : parse_message ⟨"/param/mod", a0 :: a1 :: a2 :: rest⟩ set = none := hp
    simp [process_message, hm]
  · intro hyes
    have hyes' : n ∈ set := by simpa using hyes
    simp [parse_param_mod, h0, h1, h2, hyes']

theorem c6_param_mod_gate_witness :
    (get_i32 (.int (-1)) = some (-1) ∧ get_u32 (.int 7) = some 7
      ∧ get_f64 (.double (1/2)) = some (1/2))
    ∧ ((([] : List Nat).contains 7 = false →
        parse_param_mod [.int (-1), .int 7, .double (1/2)] [] = none
        ∧ process_message [] (Queue.empty 4) ⟨"/param/mod", [.int (-1), .int 7, .double (1/2)]⟩
            = Queue.empty 4)
      ∧ (([] : List Nat).contains 7 = true →
        parse_param_mod [.int (-1), .int 7, .double (1/2)] []
          = some (.paramMod (-1) 7 (1/2) ((([] : List OscType)[0]?.bind get_i32).getD (-1))
              ((([] : List OscType)[1]?.bind get_i32).getD (-1))
              ((([] : List OscType)[2]?.bind get_i32).getD (-1))))) :=
  ⟨⟨rfl, rfl, rfl⟩, c6_param_mod_gate (.int (-1)) (.int 7) (.double (1/2)) [] []
    (-1) 7 (1/2) (Queue.empty 4) rfl rfl rfl⟩

/-- C7 counterexample: the claim says every float in an integer slot
resolves to its truncation toward zero, but the cast saturates: the wire
float 2^31 (exactly representable in f32) resolves to 2^31 - 1, not to its
truncation 2^31. -/
theorem c7_counterexample :
    get_i32 (.float 2147483648) ≠ some (ratTrunc 2147483648)
    ∧ get_i32 (.float 2147483648) = some 2147483647
    ∧ ratTrunc 2147483648 = 2147483648 := by
  refine ⟨?_, by decide, by decide⟩
  intro h
  have h1 : get_i32 (.float 2147483648) = some 2147483647 := by decide
  have h2 : ratTrunc 2147483648 = 2147483648 := by decide
  rw [h1, h2] at h
  simp at h

/-- C7 amended: integer slots accept 32/64-bit integer and 32/64-bit
float wire values; wire 5 and wire 5.0 both yield 5; a float whose
truncation toward zero lies inside the slot range resolves to that
truncation, and an out-of-range float saturates to the nearest slot
bound — for the i32 slot to -2^31 / 2^31 - 1, and for the u32 slot to
0 (any negative float) / 2^32 - 1. -/
theorem c7_amended :
    (get_i32 (.int 5) = some 5 ∧ get_i32 (.float 5) = some 5
      ∧ get_u32 (.int 5) = some 5 ∧ get_u32 (.float 5) = some 5)
    ∧ (∀ v : Int, (get_i32 (.int v)).isSome ∧ (get_i32 (.long v)).isSome
        ∧ (get_u32 (.int v)).isSome ∧ (get_u32 (.long v)).isSome)
    ∧ (∀ q : ℚ, (get_i32 (.float q)).isSome ∧ (get_u32 (.float q)).isSome
        ∧ get_i32 (.double q) = get_i32 (.float q) ∧ get_u32 (.double q) = get_u32 (.float q))
    ∧ (∀ q : ℚ, -(2 ^ 31) ≤ ratTrunc q → ratTrunc q ≤ 2 ^ 31 - 1 →
        get_i32 (.float q) = some (ratTrunc q))
    ∧ (∀ q : ℚ, 2 ^ 31 - 1 < ratTrunc q → get_i32 (.float q) = some (2 ^ 31 - 1))
    ∧ (∀ q : ℚ, ratTrunc q < -(2 ^ 31) → get_i32 (.float q) = some (-(2 ^ 31)))
    ∧ (∀ q : ℚ, 0 ≤ ratTrunc q → ratTrunc q ≤ 2 ^ 32 - 1 →
        get_u32 (.float q) = some (ratTrunc q).toNat)
    ∧ (∀ q : ℚ, ratTrunc q < 0 → get_u32 (.float q) = some 0)
    ∧ (∀ q : ℚ, 2 ^ 32 - 1 < ratTrunc q → get_u32 (.float q) = some (2 ^ 32 - 1)) := by
  refine ⟨⟨by decide, by decide, by decide, by decide⟩,
    fun v => ⟨rfl, rfl, rfl, rfl⟩, fun q => ⟨rfl, rfl, rfl, rfl⟩, ?_, ?_, ?_, ?_, ?_, ?_⟩
  · intro q hlo hhi
    simp only [get_i32, f_as_i32, Option.some.injEq]
    split_ifs <;> omega
  · intro q hhi
    simp only [get_i32, f_as_i32, Option.some.injEq]
    split_ifs <;> omega
  · intro q hlo
    simp only [get_i32, f_as_i32, Option.some.injEq]
    split_ifs <;> omega
  · intro q hlo hhi
    simp only [get_u32, f_as_u32, Option.some.injEq]
    split_ifs <;> omega
  · intro q hneg
    simp only [get_u32, f_as_u32, Option.some.injEq]
    split_ifs <;> omega
  · intro q hhi
    simp only [get_u32, f_as_u32, Option.some.injEq]
    split_ifs <;> omega

theorem c7_amended_witness :
    (-(2 ^ 31) ≤ ratTrunc 5 ∧ ratTrunc 5 ≤ 2 ^ 31 - 1)
    ∧ get_i32 (.float 5) = some (ratTrunc 5)
    ∧ ratTrunc (-1) < 0
    ∧ get_u32 (.float (-1)) = some 0 :=
  ⟨by decide, c7_amended.2.2.2.1 5 (by decide) (by decide), by decide,
   c7_amended.2.2.2.2.2.2.2.1 (-1) (by decide)⟩

/-- C9: a DumpPatchState command translates to no event: it contributes
nothing to the input event batch, and a render callback whose queue holds
a DumpPatchState among other commands produces exactly the state and
destination buffer of the same callback without it. -/
theorem c9_dump_patch_state :
    command_to_event .dumpPatchState = none
    ∧ (∀ cs1 cs2 : List Command,
        (cs1 ++ Command.dumpPatchState :: cs2).filterMap command_to_event
          = (cs1 ++ cs2).filterMap command_to_event)
    ∧ (∀ (S : Type) (enc : SampleEncoding S) (plugin : PluginModel)
        (cap : Nat) (ib ob : List ℚ) (cc sc : Nat) (data : List S) (cs1 cs2 : List Command),
        processStep enc plugin ⟨⟨cap, cs1 ++ Command.dumpPatchState :: cs2⟩, ib, ob, cc, sc⟩ data
          = processStep enc plugin ⟨⟨cap, cs1 ++ cs2⟩, ib, ob, cc, sc⟩ data) := by
  refine ⟨rfl, filterMap_dump, ?_⟩
  intro S enc plugin cap ib ob cc sc data cs1 cs2
  simp only [processStep, Queue.drain_eq_items, filterMap_dump]

/-- C10: `/param/set` does not reject a negative 32-bit integer first
argument: it parses to `ParamSet` whose `param_id` is the argument reduced
modulo `2^32` (two`s-complement reinterpretation, `n + 2^32` for negative
in-range `n`), and -1 becomes 4294967295. -/
theorem c10_param_set_negative (n : Int) (v : ℚ) (h1 : -(2 ^ 31) ≤ n) (h2 : n < 0) :
    parse_param_set [.int n, .double v] = some (.paramSet (as_u32 n) v)
    ∧ as_u32 n = (n + 2 ^ 32).toNat
    ∧ as_u32 (-1) = 4294967295 := by
  refine ⟨rfl, ?_, by decide⟩
  simp only [as_u32]
  omega

theorem c10_param_set_negative_witness :
    (-(2 ^ 31) ≤ (-1 : Int) ∧ (-1 : Int) < 0)
    ∧ (parse_param_set [.int (-1), .double (1/2)] = some (.paramSet (as_u32 (-1)) (1/2))
      ∧ as_u32 (-1) = ((-1 : Int) + 2 ^ 32).toNat
      ∧ as_u32 (-1) = 4294967295) :=
  ⟨by decide, c10_param_set_negative (-1) (1/2) (by decide) (by decide)⟩

end OscClap
